import Mathlib

/-!
Verification of the video-downloader repository.

The repository consists of four orchestration scripts over the yt-dlp
library plus one test module:

* `get_yt-video-by-id.py`    — modelled in namespace `GetYtVideoById`
* `get_ibm_yt-dlt.py`        — modelled in namespace `GetIbmYtDlt`
* `get_ibm_yt-dlt_gpt5_working_20251006.py`   — namespace `Gpt5`
* `get_ibm_yt-dlt_claude45_20251006.py`       — namespace `Claude45`

Pure helper logic (lookup tables, selector-string builders, dedup,
redaction, byte formatting) is translated directly.  The effectful
`download_video` / `main` entry points are modelled by explicit traces
of the library calls they make, with the library's behaviour supplied
as an oracle argument.
-/

/-! ## Generic string machinery

`strContains s pat` decides whether `pat` occurs as a contiguous
substring of `s` (the shape of Python's `in` operator on strings).
-/

/-- Does `pat` occur as a contiguous sublist of `s`? -/
def isSubList (pat : List Char) : List Char → Bool
  | [] => pat.isEmpty
  | c :: t => pat.isPrefixOf (c :: t) || isSubList pat t

/-- Python's `pat in s` on strings: contiguous-substring test. -/
def strContains (s pat : String) : Bool :=
  isSubList pat.data s.data

theorem isSubList_append_middle (pre pat post : List Char) :
    isSubList pat (pre ++ pat ++ post) = true := by
  induction pre with
  | nil =>
    cases pat with
    | nil => cases post <;> simp [isSubList]
    | cons c t =>
      simp only [List.nil_append, isSubList, Bool.or_eq_true]
      left
      exact List.isPrefixOf_iff_prefix.mpr (List.prefix_append _ _)
  | cons c pre ih =>
    simp only [List.cons_append, isSubList, Bool.or_eq_true]
    right
    exact ih

theorem strContains_of_eq_append (s pre pat post : String)
    (h : s = pre ++ pat ++ post) : strContains s pat = true := by
  subst h
  simp only [strContains, String.data_append]
  exact isSubList_append_middle _ _ _

/-! ## `get_yt-video-by-id.py` -/

namespace GetYtVideoById

/-- `RESOLUTION_LIMITS`: association list from `(quality, size)` pairs to
the maximum resolution; `none` in the value position is Python's `None`
("best available").  Source: `get_yt-video-by-id.py` lines 32-42. -/
def RESOLUTION_LIMITS : List ((String × String) × Option Nat) :=
  [ (("low", "low"), some 360)
  , (("low", "medium"), some 480)
  , (("low", "high"), some 720)
  , (("medium", "low"), some 480)
  , (("medium", "medium"), some 720)
  , (("medium", "high"), some 1080)
  , (("high", "low"), some 720)
  , (("high", "medium"), some 1080)
  , (("high", "high"), none)
  ]

/-- `RESOLUTION_LIMITS.get((quality, size), 720)`: the lookup performed at
the top of `get_format_selector` (line 47); a missing key falls back to
a limit of 720. -/
def resolution_limit (quality size : String) : Option Nat :=
  match RESOLUTION_LIMITS.lookup (quality, size) with
  | some v => v
  | none => some 720

/-- `get_format_selector(quality, size)` (lines 45-62): builds the yt-dlp
format-selector string from the resolution limit. -/
def get_format_selector (quality size : String) : String :=
  match resolution_limit quality size with
  | none =>
      "bestvideo[ext=mp4]+bestaudio[ext=m4a]/bestvideo+bestaudio/best[ext=mp4]/best"
  | some max_height =>
      "bestvideo[height<=" ++ toString max_height ++ "][ext=mp4]+bestaudio[ext=m4a]/" ++
      "bestvideo[height<=" ++ toString max_height ++ "]+bestaudio/" ++
      "best[height<=" ++ toString max_height ++ "][ext=mp4]/" ++
      "best[height<=" ++ toString max_height ++ "]/" ++
      "bestvideo+bestaudio/" ++
      "best[ext=mp4]/" ++
      "best"

end GetYtVideoById

/-- C3: every one of the nine (quality, size) pairs maps to exactly the
documented maximum resolution, and the table holds exactly those nine
keys. -/
theorem resolution_limits_table :
    GetYtVideoById.RESOLUTION_LIMITS.lookup ("low", "low") = some (some 360)
    ∧ GetYtVideoById.RESOLUTION_LIMITS.lookup ("low", "medium") = some (some 480)
    ∧ GetYtVideoById.RESOLUTION_LIMITS.lookup ("low", "high") = some (some 720)
    ∧ GetYtVideoById.RESOLUTION_LIMITS.lookup ("medium", "low") = some (some 480)
    ∧ GetYtVideoById.RESOLUTION_LIMITS.lookup ("medium", "medium") = some (some 720)
    ∧ GetYtVideoById.RESOLUTION_LIMITS.lookup ("medium", "high") = some (some 1080)
    ∧ GetYtVideoById.RESOLUTION_LIMITS.lookup ("high", "low") = some (some 720)
    ∧ GetYtVideoById.RESOLUTION_LIMITS.lookup ("high", "medium") = some (some 1080)
    ∧ GetYtVideoById.RESOLUTION_LIMITS.lookup ("high", "high") = some none
    ∧ GetYtVideoById.RESOLUTION_LIMITS.map Prod.fst =
        [("low", "low"), ("low", "medium"), ("low", "high"),
         ("medium", "low"), ("medium", "medium"), ("medium", "high"),
         ("high", "low"), ("high", "medium"), ("high", "high")] := by
  decide

/-- C4: for each of the nine defined (quality, size) pairs, the selector
string contains `bestaudio`, contains the decimal digits of the pair's
resolution limit when that limit is not `None`, contains no `height<=`
when the limit is `None` (high/high), contains `ext=mp4`, and has at
least one `/`-separated fallback alternative. -/
theorem format_selector_structure :
    ∀ p ∈ [("low", "low"), ("low", "medium"), ("low", "high"),
        ("medium", "low"), ("medium", "medium"), ("medium", "high"),
        ("high", "low"), ("high", "medium"), ("high", "high")],
      strContains (GetYtVideoById.get_format_selector p.1 p.2) "bestaudio" = true
      ∧ strContains (GetYtVideoById.get_format_selector p.1 p.2) "ext=mp4" = true
      ∧ strContains (GetYtVideoById.get_format_selector p.1 p.2) "/" = true
      ∧ ((GetYtVideoById.resolution_limit p.1 p.2).all fun n =>
          strContains (GetYtVideoById.get_format_selector p.1 p.2) (toString n)) = true
      ∧ (GetYtVideoById.resolution_limit p.1 p.2 = none →
          strContains (GetYtVideoById.get_format_selector p.1 p.2) "height<=" = false) := by
  decide

/-- Witness for `format_selector_structure` at the pair (low, low). -/
theorem format_selector_structure_witness :
    strContains (GetYtVideoById.get_format_selector "low" "low") "bestaudio" = true
    ∧ strContains (GetYtVideoById.get_format_selector "low" "low") "ext=mp4" = true
    ∧ strContains (GetYtVideoById.get_format_selector "low" "low") "/" = true
    ∧ ((GetYtVideoById.resolution_limit "low" "low").all fun n =>
        strContains (GetYtVideoById.get_format_selector "low" "low") (toString n)) = true
    ∧ (GetYtVideoById.resolution_limit "low" "low" = none →
        strContains (GetYtVideoById.get_format_selector "low" "low") "height<=" = false) :=
  format_selector_structure ("low", "low") (by decide)

set_option maxRecDepth 8192

/-- C8: any (quality, size) pair absent from the nine-key table falls back
to a maximum height of 720, returning the same selector string as the
720-limited pair (low, high). -/
theorem format_selector_unknown_pair (q s : String)
    (h : GetYtVideoById.RESOLUTION_LIMITS.lookup (q, s) = none) :
    GetYtVideoById.get_format_selector q s
      = GetYtVideoById.get_format_selector "low" "high"
    ∧ strContains (GetYtVideoById.get_format_selector q s) "height<=720" = true := by
  have hlim : GetYtVideoById.resolution_limit q s = some 720 := by
    unfold GetYtVideoById.resolution_limit
    rw [h]
  constructor
  · unfold GetYtVideoById.get_format_selector
    rw [hlim]
    decide
  · unfold GetYtVideoById.get_format_selector
    rw [hlim]
    decide

/-- Witness for `format_selector_unknown_pair` at the unrecognized pair
("ultra", "huge"). -/
theorem format_selector_unknown_pair_witness :
    GetYtVideoById.RESOLUTION_LIMITS.lookup ("ultra", "huge") = none
    ∧ (GetYtVideoById.get_format_selector "ultra" "huge"
        = GetYtVideoById.get_format_selector "low" "high"
       ∧ strContains (GetYtVideoById.get_format_selector "ultra" "huge") "height<=720" = true) :=
  ⟨by decide, format_selector_unknown_pair "ultra" "huge" (by decide)⟩

namespace GetYtVideoById

/-- Outcome of the single guarded `ydl.download([url])` call inside
`download_video` (lines 156-170): success, a `yt_dlp.utils.DownloadError`,
or any other exception. -/
inductive LibResult where
  | ok
  | downloadError (msg : String)
  | otherError (msg : String)
  deriving DecidableEq, Repr

/-- The observable side effects of `download_video` that the tests check:
the `mkdir(parents=True, exist_ok=True)` on the output directory and the
library invocation with the target URL and the option fields derived from
the arguments. -/
inductive Effect where
  | mkdir (dir : String)
  | ydlDownload (url : String) (format : String) (subtitleslangs : List String)
      (mergeOutputFormat : String)
  deriving DecidableEq, Repr

/-- `download_video(video_id, quality, size, language, output_dir, ...)`
(lines 65-170), modelled as the ordered trace of its effects plus its
boolean result.  The library's behaviour is the oracle `lib`; console
printing and the remaining constant option fields are omitted.  The
`mkdir` (line 89) precedes the library call (line 158), the URL is built
by concatenation (line 87), and the `format` option is exactly
`get_format_selector(quality, size)` (lines 91, 94). -/
def download_video (video_id quality size language output_dir : String)
    (lib : LibResult) : Bool × List Effect :=
  let url := "https://www.youtube.com/watch?v=" ++ video_id
  let format_selector := get_format_selector quality size
  let trace := [Effect.mkdir output_dir,
                Effect.ydlDownload url format_selector [language] "mp4"]
  match lib with
  | .ok => (true, trace)
  | .downloadError _ => (false, trace)
  | .otherError _ => (false, trace)

end GetYtVideoById

/-- C7: `download_video` first ensures the output directory exists, then
calls the library exactly once with the URL
`https://www.youtube.com/watch?v=<video_id>` and the format string
`get_format_selector(quality, size)`, and returns `true` exactly when
that call raises no exception. -/
theorem download_video_orchestration
    (video_id quality size language output_dir : String)
    (lib : GetYtVideoById.LibResult) :
    (GetYtVideoById.download_video video_id quality size language output_dir lib).2
      = [GetYtVideoById.Effect.mkdir output_dir,
         GetYtVideoById.Effect.ydlDownload
           ("https://www.youtube.com/watch?v=" ++ video_id)
           (GetYtVideoById.get_format_selector quality size) [language] "mp4"]
    ∧ ((GetYtVideoById.download_video video_id quality size language output_dir lib).1 = true
        ↔ lib = GetYtVideoById.LibResult.ok) := by
  refine ⟨?_, ?_⟩
  · cases lib <;> rfl
  · cases lib <;> simp [GetYtVideoById.download_video]

/-! ## Process exit codes of the `main` entry points

Each `main` is modelled as a function from the parsed mode flags and the
outcomes of the wrapped operations to the process exit code.  `MainEvent`
abstracts whether the body runs to completion, is interrupted by
`KeyboardInterrupt`, or aborts with an unexpected exception; CPython
terminates with status 1 on an uncaught exception (including an uncaught
`KeyboardInterrupt`), which is folded into the models for paths with no
handler. -/

inductive MainEvent where
  | normal
  | interrupted
  | unexpectedError
  deriving DecidableEq, Repr

namespace GetYtVideoById

/-- `main()` of `get_yt-video-by-id.py` (lines 221-279).  With
`--list-formats`, `list_formats` swallows every exception internally
(lines 217-218) and `main` returns, so the process exits 0 whether or not
the listing worked (`list_ok` is unused by the code); otherwise the exit
code is `0 if success else 1` from `download_video`'s boolean.  This
`main` installs no exception handler, so an interrupt or unexpected
exception ends the process with CPython's status 1. -/
def main_exit (list_formats list_ok download_ok : Bool) (ev : MainEvent) : Nat :=
  match ev with
  | .interrupted => 1
  | .unexpectedError => 1
  | .normal =>
    if list_formats then 0
    else if download_ok then 0 else 1

/-- Modelled from the spec: "Exit code 0 on success, 1 on failure or
interruption" — whether the operation the invocation requested actually
succeeded.  In listing mode that operation is the format listing,
otherwise it is the download; an interrupted or crashed run did not
succeed. -/
def requested_operation_ok (list_formats list_ok download_ok : Bool)
    (ev : MainEvent) : Bool :=
  match ev with
  | .interrupted => false
  | .unexpectedError => false
  | .normal => if list_formats then list_ok else download_ok

end GetYtVideoById

namespace GetIbmYtDlt

/-- `main()` of `get_ibm_yt-dlt.py` (lines 651-819).  `--diagnostics` and
`--list-formats` always `return` (exit 0) even when the probe reports
failures; a failed `get_video_info` falls back to diagnostics and exits 1
only when the URL is inaccessible; `--info-only` then returns 0; a failed
download exits 1; `KeyboardInterrupt` and unexpected exceptions are
caught and exit 1. -/
def main_exit (diagnostics list_formats info_only : Bool)
    (info_ok url_accessible download_ok : Bool) (ev : MainEvent) : Nat :=
  match ev with
  | .interrupted => 1
  | .unexpectedError => 1
  | .normal =>
    if diagnostics then 0
    else if list_formats then 0
    else if !info_ok && !url_accessible then 1
    else if info_only then 0
    else if download_ok then 0 else 1

end GetIbmYtDlt

namespace Claude45

/-- `main()` of `get_ibm_yt-dlt_claude45_20251006.py` (lines 733-878);
identical exit-code structure to `GetIbmYtDlt.main_exit` (the
`--list-formats` branch catches its own exceptions at lines 815-819). -/
def main_exit (diagnostics list_formats info_only : Bool)
    (info_ok url_accessible download_ok : Bool) (ev : MainEvent) : Nat :=
  match ev with
  | .interrupted => 1
  | .unexpectedError => 1
  | .normal =>
    if diagnostics then 0
    else if list_formats then 0
    else if !info_ok && !url_accessible then 1
    else if info_only then 0
    else if download_ok then 0 else 1

end Claude45

/-- C5 counterexample: invoking `get_yt-video-by-id.py` with
`--list-formats` when the listing operation fails still exits with
code 0, not the claimed 1. -/
theorem main_exit_list_failure_counterexample :
    GetYtVideoById.main_exit true false false MainEvent.normal = 0
    ∧ GetYtVideoById.requested_operation_ok true false false MainEvent.normal = false
    ∧ ¬ (GetYtVideoById.main_exit true false false MainEvent.normal
          = if GetYtVideoById.requested_operation_ok true false false MainEvent.normal
            then 0 else 1) := by
  decide

/-- C5 amended: in download mode every script's `main` exits 0 exactly on
download success and 1 on failure, interruption, or unexpected error; the
auxiliary modes (diagnostics / list-formats / info-only) exit 0 even when
their underlying operation fails, except that the IBM-style scripts exit 1
when the pre-download info extraction fails and the URL is inaccessible. -/
theorem main_exit_codes :
    (∀ list_ok download_ok : Bool,
      GetYtVideoById.main_exit false list_ok download_ok MainEvent.normal
        = (if download_ok then 0 else 1)
      ∧ GetYtVideoById.main_exit false list_ok download_ok MainEvent.interrupted = 1
      ∧ GetYtVideoById.main_exit false list_ok download_ok MainEvent.unexpectedError = 1
      ∧ GetYtVideoById.main_exit true list_ok download_ok MainEvent.normal = 0)
    ∧ (∀ info_ok url_accessible download_ok : Bool,
      GetIbmYtDlt.main_exit false false false info_ok url_accessible download_ok MainEvent.normal
        = (if !info_ok && !url_accessible then 1 else if download_ok then 0 else 1)
      ∧ GetIbmYtDlt.main_exit false false false info_ok url_accessible download_ok
          MainEvent.interrupted = 1
      ∧ GetIbmYtDlt.main_exit false false false info_ok url_accessible download_ok
          MainEvent.unexpectedError = 1
      ∧ GetIbmYtDlt.main_exit true false false info_ok url_accessible download_ok
          MainEvent.normal = 0
      ∧ GetIbmYtDlt.main_exit false true false info_ok url_accessible download_ok
          MainEvent.normal = 0
      ∧ GetIbmYtDlt.main_exit false false true info_ok url_accessible download_ok
          MainEvent.normal = (if !info_ok && !url_accessible then 1 else 0)
      ∧ GetIbmYtDlt.main_exit false false true info_ok url_accessible download_ok
          MainEvent.interrupted = 1
      ∧ GetIbmYtDlt.main_exit false false true info_ok url_accessible download_ok
          MainEvent.unexpectedError = 1)
    ∧ (∀ info_ok url_accessible download_ok : Bool,
      Claude45.main_exit false false false info_ok url_accessible download_ok MainEvent.normal
        = (if !info_ok && !url_accessible then 1 else if download_ok then 0 else 1)
      ∧ Claude45.main_exit false false false info_ok url_accessible download_ok
          MainEvent.interrupted = 1
      ∧ Claude45.main_exit false false false info_ok url_accessible download_ok
          MainEvent.unexpectedError = 1
      ∧ Claude45.main_exit true false false info_ok url_accessible download_ok
          MainEvent.normal = 0
      ∧ Claude45.main_exit false true false info_ok url_accessible download_ok
          MainEvent.normal = 0
      ∧ Claude45.main_exit false false true info_ok url_accessible download_ok
          MainEvent.normal = (if !info_ok && !url_accessible then 1 else 0)
      ∧ Claude45.main_exit false false true info_ok url_accessible download_ok
          MainEvent.interrupted = 1
      ∧ Claude45.main_exit false false true info_ok url_accessible download_ok
          MainEvent.unexpectedError = 1) := by
  decide

/-! ## Deduplication of the fallback selector lists (C6)

`get_ibm_yt-dlt.py` line 529 and the claude45 version line 572 both run
`list(dict.fromkeys(format_options))`; the gpt5 version lines 547-553 run
an explicit loop with a `seen` set that also skips falsy (empty)
selectors.  `dedupFirstOccurrence` is the specification-level description
of order-preserving deduplication: keep each element's first occurrence,
in order. -/

/-- Specification: keep the first occurrence of every element, in the
order those first occurrences appear. -/
def dedupFirstOccurrence {α : Type} [DecidableEq α] : List α → List α
  | [] => []
  | a :: l => a :: dedupFirstOccurrence (l.filter (· ≠ a))
termination_by l => l.length
decreasing_by
  simp only [List.length_cons]
  exact Nat.lt_succ_of_le (List.length_filter_le _ _)

namespace GetIbmYtDlt

/-- `list(dict.fromkeys(format_options))` (line 529): keys are inserted
in iteration order, insertion of an existing key is a no-op. -/
def dedup_format_options (l : List String) : List String :=
  l.foldl (fun acc x => if x ∈ acc then acc else acc ++ [x]) []

end GetIbmYtDlt

namespace Claude45

/-- `list(dict.fromkeys(format_options))` (line 572 of the claude45
version). -/
def dedup_format_options (l : List String) : List String :=
  l.foldl (fun acc x => if x ∈ acc then acc else acc ++ [x]) []

end Claude45

namespace Gpt5

/-- The in-order dedup loop of the gpt5 version (lines 546-553):
`if sel and sel not in seen` — a selector is kept when it is non-empty
(Python truthiness of `str`) and not seen before; `uniq_options` and
`seen` receive exactly the same elements. -/
def dedup_format_options (l : List String) : List String :=
  (l.foldl
    (fun (st : List String × List String) sel =>
      if sel ≠ "" ∧ sel ∉ st.2 then (st.1 ++ [sel], st.2 ++ [sel]) else st)
    ([], [])).1

end Gpt5

theorem dedupFirstOccurrence_sublist {α : Type} [DecidableEq α] (l : List α) :
    (dedupFirstOccurrence l).Sublist l := by
  have H : ∀ n (l : List α), l.length ≤ n → (dedupFirstOccurrence l).Sublist l := by
    intro n
    induction n with
    | zero =>
      intro l hl
      rw [List.length_eq_zero.mp (Nat.le_zero.mp hl)]
      simp [dedupFirstOccurrence]
    | succ n ih =>
      intro l hl
      cases l with
      | nil => simp [dedupFirstOccurrence]
      | cons a t =>
        rw [dedupFirstOccurrence]
        apply List.Sublist.cons₂
        refine List.Sublist.trans ?_ (List.filter_sublist (p := fun x => decide (x ≠ a)) t)
        apply ih
        exact le_trans (List.length_filter_le _ _) (Nat.le_of_succ_le_succ hl)
  exact H l.length l le_rfl

theorem mem_dedupFirstOccurrence {α : Type} [DecidableEq α] (l : List α) (x : α) :
    x ∈ dedupFirstOccurrence l ↔ x ∈ l := by
  have H : ∀ n (l : List α), l.length ≤ n → ∀ x, (x ∈ dedupFirstOccurrence l ↔ x ∈ l) := by
    intro n
    induction n with
    | zero =>
      intro l hl x
      rw [List.length_eq_zero.mp (Nat.le_zero.mp hl)]
      simp [dedupFirstOccurrence]
    | succ n ih =>
      intro l hl x
      cases l with
      | nil => simp [dedupFirstOccurrence]
      | cons a t =>
        rw [dedupFirstOccurrence]
        by_cases hx : x = a
        · subst hx; simp
        · simp only [List.mem_cons, hx, false_or]
          rw [ih (t.filter (· ≠ a))
                (le_trans (List.length_filter_le _ _) (Nat.le_of_succ_le_succ hl)) x]
          simp [List.mem_filter, hx]
  exact H l.length l le_rfl x

theorem dedupFirstOccurrence_nodup {α : Type} [DecidableEq α] (l : List α) :
    (dedupFirstOccurrence l).Nodup := by
  have H : ∀ n (l : List α), l.length ≤ n → (dedupFirstOccurrence l).Nodup := by
    intro n
    induction n with
    | zero =>
      intro l hl
      rw [List.length_eq_zero.mp (Nat.le_zero.mp hl)]
      simp [dedupFirstOccurrence]
    | succ n ih =>
      intro l hl
      cases l with
      | nil => simp [dedupFirstOccurrence]
      | cons a t =>
        rw [dedupFirstOccurrence]
        refine List.nodup_cons.mpr ⟨?_, ?_⟩
        · intro hmem
          rw [mem_dedupFirstOccurrence] at hmem
          simp [List.mem_filter] at hmem
        · apply ih
          exact le_trans (List.length_filter_le _ _) (Nat.le_of_succ_le_succ hl)
  exact H l.length l le_rfl

theorem foldl_fromkeys_eq {α : Type} [DecidableEq α] (l : List α) (acc : List α) :
    l.foldl (fun acc x => if x ∈ acc then acc else acc ++ [x]) acc
      = acc ++ dedupFirstOccurrence (l.filter (fun y => y ∉ acc)) := by
  induction l generalizing acc with
  | nil => simp [dedupFirstOccurrence]
  | cons x t ih =>
    by_cases hx : x ∈ acc
    · simp only [List.foldl_cons, if_pos hx, List.filter_cons]
      have : (decide (x ∉ acc)) = false := by simp [hx]
      rw [this]
      exact ih acc
    · simp only [List.foldl_cons, if_neg hx]
      rw [ih (acc ++ [x])]
      have hstep : (x :: t).filter (fun y => y ∉ acc)
          = x :: t.filter (fun y => y ∉ acc) := by
        simp [List.filter_cons, hx]
      rw [hstep, dedupFirstOccurrence]
      have hfilter : t.filter (fun y => y ∉ acc ++ [x])
          = (t.filter (fun y => y ∉ acc)).filter (· ≠ x) := by
        rw [List.filter_filter]
        apply List.filter_congr
        intro y _
        by_cases h1 : y ∈ acc <;> by_cases h2 : y = x <;>
          simp [h1, h2]
      rw [hfilter]
      simp

theorem dedup_format_options_eq_spec (l : List String) :
    GetIbmYtDlt.dedup_format_options l = dedupFirstOccurrence l := by
  unfold GetIbmYtDlt.dedup_format_options
  rw [foldl_fromkeys_eq]
  simp

theorem claude45_dedup_format_options_eq_spec (l : List String) :
    Claude45.dedup_format_options l = dedupFirstOccurrence l := by
  unfold Claude45.dedup_format_options
  rw [foldl_fromkeys_eq]
  simp

theorem gpt5_foldl_pair (l : List String) (acc : List String) :
    l.foldl
      (fun (st : List String × List String) sel =>
        if sel ≠ "" ∧ sel ∉ st.2 then (st.1 ++ [sel], st.2 ++ [sel]) else st)
      (acc, acc)
    = (l.foldl (fun acc sel => if sel ≠ "" ∧ sel ∉ acc then acc ++ [sel] else acc) acc,
       l.foldl (fun acc sel => if sel ≠ "" ∧ sel ∉ acc then acc ++ [sel] else acc) acc) := by
  induction l generalizing acc with
  | nil => rfl
  | cons x t ih =>
    simp only [List.foldl_cons]
    by_cases hx : x ≠ "" ∧ x ∉ acc
    · rw [if_pos hx, if_pos hx]
      exact ih (acc ++ [x])
    · rw [if_neg hx, if_neg hx]
      exact ih acc

theorem gpt5_foldl_filter (l : List String) (acc : List String) :
    l.foldl (fun acc sel => if sel ≠ "" ∧ sel ∉ acc then acc ++ [sel] else acc) acc
    = (l.filter (fun s => s ≠ "")).foldl
        (fun acc x => if x ∈ acc then acc else acc ++ [x]) acc := by
  induction l generalizing acc with
  | nil => rfl
  | cons x t ih =>
    by_cases hx : x = ""
    · subst hx
      simp only [List.foldl_cons, List.filter_cons]
      rw [if_neg (by simp)]
      have hd : (decide (("" : String) ≠ "")) = false := by decide
      rw [hd]
      simp only [Bool.false_eq_true, if_false]
      exact ih acc
    · have hd : (decide (x ≠ "")) = true := by simp [hx]
      simp only [List.foldl_cons, List.filter_cons, hd, if_true]
      by_cases hmem : x ∈ acc
      · rw [if_neg (by simp [hx, hmem]), if_pos hmem]
        exact ih acc
      · rw [if_pos ⟨hx, hmem⟩, if_neg hmem]
        exact ih (acc ++ [x])

theorem gpt5_dedup_format_options_eq_spec (l : List String) :
    Gpt5.dedup_format_options l
      = dedupFirstOccurrence (l.filter (fun s => s ≠ "")) := by
  unfold Gpt5.dedup_format_options
  rw [gpt5_foldl_pair l [], gpt5_foldl_filter, foldl_fromkeys_eq]
  simp

/-- C6: in every version, the list of selectors actually tried is the
assembled candidate list deduplicated keeping each selector's first
occurrence in order: the first version (line 529) and the claude45
version (line 572) via `dict.fromkeys`, the gpt5 version (lines 546-553)
additionally dropping empty selectors; the tried list has no duplicates
and is an order-preserving subsequence of the candidate list with the
same members. -/
theorem dedup_format_options_order_preserving :
    ∀ l : List String,
      GetIbmYtDlt.dedup_format_options l = dedupFirstOccurrence l
      ∧ Claude45.dedup_format_options l = dedupFirstOccurrence l
      ∧ Gpt5.dedup_format_options l = dedupFirstOccurrence (l.filter (fun s => s ≠ ""))
      ∧ (GetIbmYtDlt.dedup_format_options l).Nodup
      ∧ (Claude45.dedup_format_options l).Nodup
      ∧ (Gpt5.dedup_format_options l).Nodup
      ∧ (GetIbmYtDlt.dedup_format_options l).Sublist l
      ∧ (Claude45.dedup_format_options l).Sublist l
      ∧ (Gpt5.dedup_format_options l).Sublist l
      ∧ (∀ x, x ∈ GetIbmYtDlt.dedup_format_options l ↔ x ∈ l) := by
  intro l
  have h1 := dedup_format_options_eq_spec l
  have h2 := claude45_dedup_format_options_eq_spec l
  have h3 := gpt5_dedup_format_options_eq_spec l
  refine ⟨h1, h2, h3, ?_, ?_, ?_, ?_, ?_, ?_, ?_⟩
  · rw [h1]; exact dedupFirstOccurrence_nodup l
  · rw [h2]; exact dedupFirstOccurrence_nodup l
  · rw [h3]; exact dedupFirstOccurrence_nodup _
  · rw [h1]; exact dedupFirstOccurrence_sublist l
  · rw [h2]; exact dedupFirstOccurrence_sublist l
  · rw [h3]
    exact List.Sublist.trans (dedupFirstOccurrence_sublist _) (List.filter_sublist l)
  · intro x
    rw [h1]
    exact mem_dedupFirstOccurrence l x

/-! ## The format-selector retry loops of `download_video` (C1)

Each version iterates the deduplicated `format_options`, invoking the
library once per selector; every exception (every `DownloadError` branch
and the generic handler all end in `continue`) moves on to the next
selector, and a successful call returns `True` immediately.  After the
loop, `get_ibm_yt-dlt.py` (lines 606-634) and the gpt5 version (lines
610-627) make one final library call with default options (no `format`
key) and return its outcome; the claude45 version (lines 692-709) returns
`False` directly.  The library is abstracted by an oracle `ok` on the
attempts made. -/

/-- One library invocation of the retry phase: either a download with an
explicit `format` selector, or the final call with default options. -/
inductive FormatAttempt where
  | withFormat (sel : String)
  | defaultOpts
  deriving DecidableEq, Repr

/-- The `for format_selector in format_options` loop shared verbatim by
all three IBM-script versions: returns whether some selector succeeded,
together with the ordered trace of library calls made. -/
def try_format_options (ok : FormatAttempt → Bool) : List String → Bool × List FormatAttempt
  | [] => (false, [])
  | sel :: rest =>
    if ok (.withFormat sel) then (true, [.withFormat sel])
    else
      let r := try_format_options ok rest
      (r.1, .withFormat sel :: r.2)

namespace GetIbmYtDlt

/-- The retry phase of `download_video` in `get_ibm_yt-dlt.py` (lines
574-634): the selector loop followed, if every selector failed, by one
final library call with default options; `False` only after that final
call also fails. -/
def download_video_attempts (format_options : List String)
    (ok : FormatAttempt → Bool) : Bool × List FormatAttempt :=
  let r := try_format_options ok format_options
  if r.1 then r
  else (ok .defaultOpts, r.2 ++ [.defaultOpts])

end GetIbmYtDlt

namespace Gpt5

/-- The retry phase of `download_video` in the gpt5 version (lines
581-627): same structure as `GetIbmYtDlt.download_video_attempts`, with
the last-ditch fallback at lines 610-627. -/
def download_video_attempts (format_options : List String)
    (ok : FormatAttempt → Bool) : Bool × List FormatAttempt :=
  let r := try_format_options ok format_options
  if r.1 then r
  else (ok .defaultOpts, r.2 ++ [.defaultOpts])

end Gpt5

namespace Claude45

/-- The retry phase of `download_video` in the claude45 version (lines
646-709): the selector loop, after which the function returns `False`
immediately — there is no final default-options call. -/
def download_video_attempts (format_options : List String)
    (ok : FormatAttempt → Bool) : Bool × List FormatAttempt :=
  try_format_options ok format_options

end Claude45

theorem try_format_options_all_fail (ok : FormatAttempt → Bool)
    (options : List String)
    (hfail : ∀ sel ∈ options, ok (.withFormat sel) = false) :
    try_format_options ok options = (false, options.map FormatAttempt.withFormat) := by
  induction options with
  | nil => rfl
  | cons sel rest ih =>
    rw [try_format_options, if_neg (by simp [hfail sel (List.mem_cons_self sel rest)])]
    rw [ih (fun s hs => hfail s (List.mem_cons_of_mem sel hs))]
    rfl

/-- C1 counterexample: in the claude45 version, with a single selector
that the library rejects, `download_video` returns `False` without ever
making a default-options call — the claimed final fallback is absent from
that version. -/
theorem claude45_no_final_fallback :
    (Claude45.download_video_attempts ["best"] (fun _ => false)).1 = false
    ∧ FormatAttempt.defaultOpts
        ∉ (Claude45.download_video_attempts ["best"] (fun _ => false)).2 := by
  decide

/-- C1 amended: in every version the selectors are tried linearly in list
order, each library error moving on to the next; when every selector has
failed, `get_ibm_yt-dlt.py` and the gpt5 version make exactly one final
default-options call and return its outcome (so `False` only after it
also fails), while the claude45 version returns `False` immediately after
the loop with no such final call. -/
theorem download_video_retry_fallback (options : List String)
    (ok : FormatAttempt → Bool)
    (hfail : ∀ sel ∈ options, ok (.withFormat sel) = false) :
    GetIbmYtDlt.download_video_attempts options ok
      = (ok .defaultOpts, options.map FormatAttempt.withFormat ++ [.defaultOpts])
    ∧ Gpt5.download_video_attempts options ok
      = (ok .defaultOpts, options.map FormatAttempt.withFormat ++ [.defaultOpts])
    ∧ Claude45.download_video_attempts options ok
      = (false, options.map FormatAttempt.withFormat) := by
  have h := try_format_options_all_fail ok options hfail
  refine ⟨?_, ?_, ?_⟩
  · unfold GetIbmYtDlt.download_video_attempts
    rw [h]
    rfl
  · unfold Gpt5.download_video_attempts
    rw [h]
    rfl
  · unfold Claude45.download_video_attempts
    rw [h]

/-- Witness for `download_video_retry_fallback` with two failing
selectors and a failing final call. -/
theorem download_video_retry_fallback_witness :
    GetIbmYtDlt.download_video_attempts ["best", "worst"] (fun _ => false)
      = ((fun _ => false) FormatAttempt.defaultOpts,
         [FormatAttempt.withFormat "best", FormatAttempt.withFormat "worst",
          FormatAttempt.defaultOpts])
    ∧ Gpt5.download_video_attempts ["best", "worst"] (fun _ => false)
      = ((fun _ => false) FormatAttempt.defaultOpts,
         [FormatAttempt.withFormat "best", FormatAttempt.withFormat "worst",
          FormatAttempt.defaultOpts])
    ∧ Claude45.download_video_attempts ["best", "worst"] (fun _ => false)
      = (false, [FormatAttempt.withFormat "best", FormatAttempt.withFormat "worst"]) :=
  download_video_retry_fallback ["best", "worst"] (fun _ => false) (by decide)

/-! ## `get_optimal_format_selector` (C2)

The regular (non-HLS) branch of `get_optimal_format_selector`,
`get_ibm_yt-dlt.py` lines 426-468 and the gpt5 version lines 463-489,
given the `formats` list extracted by `get_video_info` and the configured
`preferred_quality`.  Both versions share the same analysis of the
format dictionaries (Python truthiness filters, the hardcoded extension
priority, `int(preferred_quality.replace('p', ''))`, `max(...)`), and
differ only in the selector strings they assemble. -/

/-- The `ext`/`height` fields of one entry of `info['formats']`. -/
structure FormatInfo where
  ext : Option String
  height : Option Nat
  deriving DecidableEq, Repr

/-- `[f.get('height') for f in formats if f.get('height')]`: heights that
are truthy (present and nonzero). -/
def available_heights (formats : List FormatInfo) : List Nat :=
  formats.filterMap fun f =>
    match f.height with
    | some h => if h ≠ 0 then some h else none
    | none => none

/-- `[f.get('ext') for f in formats if f.get('ext')]`: extensions that are
truthy (present and non-empty). -/
def available_exts (formats : List FormatInfo) : List String :=
  formats.filterMap fun f =>
    match f.ext with
    | some e => if e ≠ "" then some e else none
    | none => none

/-- `ext_priority = ['mp4', 'webm', 'mkv', 'flv']` (v1 line 437, gpt5 line
472). -/
def ext_priority : List String := ["mp4", "webm", "mkv", "flv"]

/-- The `for ext in ext_priority: if ext in available_exts: best_ext =
ext; break` loop, generically over the priority list. -/
def firstExtIn : List String → List String → Option String
  | [], _ => none
  | e :: rest, exts => if e ∈ exts then some e else firstExtIn rest exts

/-- `best_ext` as both versions compute it. -/
def best_ext (exts : List String) : Option String :=
  firstExtIn ext_priority exts

/-- Decimal-digit accumulation used to model Python's `int()`. -/
def digitsVal : List Char → Nat → Option Nat
  | [], acc => some acc
  | c :: t, acc => if c.isDigit then digitsVal t (acc * 10 + (c.toNat - 48)) else none

/-- Python's `int()` on a plain decimal string: optional minus sign
followed by at least one digit (`none` is Python's `ValueError`; the
whitespace, `+`-sign and underscore tolerance of `int()` is not used by
any quality string). -/
def py_int? (s : String) : Option Int :=
  match s.data with
  | [] => none
  | '-' :: t => if t = [] then none else (digitsVal t 0).map fun v => -(v : Int)
  | cs => (digitsVal cs 0).map fun v => (v : Int)

/-- `int(preferred_quality.replace('p', ''))` (v1 line 457, gpt5 line
481): every `p` removed, then parsed as an integer. -/
def parse_preferred (q : String) : Option Int :=
  py_int? (String.mk (q.data.filter fun c => c ≠ 'p'))

/-- Python's `max` over the (guarded non-empty, all-positive) height
list. -/
def py_max (l : List Nat) : Nat :=
  l.foldl max 0

namespace GetIbmYtDlt

/-- `f'best[ext={best_ext}]/best' if best_ext else 'best'`, repeated at
lines 451-453, 465 and 468 of `get_ibm_yt-dlt.py`. -/
def ext_fallback_selector (b : Option String) : String :=
  match b with
  | some e => "best[ext=" ++ e ++ "]/best"
  | none => "best"

/-- The regular-format branch of `get_optimal_format_selector`
(`get_ibm_yt-dlt.py` lines 426-468): empty `formats` yield `'best'`; with
no usable heights only the extension preference applies; with
`preferred_quality == 'best'` no height constraint is emitted; otherwise
the parsed preferred height is capped by the maximum available height. -/
def get_optimal_format_selector (formats : List FormatInfo)
    (preferred_quality : String) : String :=
  if formats.isEmpty then "best"
  else if (available_heights formats).isEmpty then
    ext_fallback_selector (best_ext (available_exts formats))
  else if preferred_quality = "best" then
    ext_fallback_selector (best_ext (available_exts formats))
  else
    match parse_preferred preferred_quality with
    | some preferred_height =>
      match best_ext (available_exts formats) with
      | some e =>
          "best[height<=" ++
          toString (min preferred_height (py_max (available_heights formats) : Int)) ++
          "][ext=" ++ e ++ "]/best[ext=" ++ e ++ "]/best"
      | none =>
          "best[height<=" ++
          toString (min preferred_height (py_max (available_heights formats) : Int)) ++
          "]/best"
    | none => ext_fallback_selector (best_ext (available_exts formats))

end GetIbmYtDlt

namespace Gpt5

/-- `f"bestvideo[ext={best_ext}]+bestaudio/best" if best_ext else
"bestvideo+bestaudio/best"`, repeated at lines 478, 487 and 489 of the
gpt5 version. -/
def ext_fallback_selector (b : Option String) : String :=
  match b with
  | some e => "bestvideo[ext=" ++ e ++ "]+bestaudio/best"
  | none => "bestvideo+bestaudio/best"

/-- The regular-format branch of `get_optimal_format_selector` of the
gpt5 version (lines 463-489); same shape as the first version with
`bestvideo...+bestaudio` selector strings. -/
def get_optimal_format_selector (formats : List FormatInfo)
    (preferred_quality : String) : String :=
  if formats.isEmpty then "bestvideo+bestaudio/best"
  else if (available_heights formats).isEmpty then
    ext_fallback_selector (best_ext (available_exts formats))
  else if preferred_quality = "best" then
    ext_fallback_selector (best_ext (available_exts formats))
  else
    match parse_preferred preferred_quality with
    | some pref_h =>
      match best_ext (available_exts formats) with
      | some e =>
          "bestvideo[height<=" ++
          toString (min pref_h (py_max (available_heights formats) : Int)) ++
          "][ext=" ++ e ++ "]+bestaudio/best"
      | none =>
          "bestvideo[height<=" ++
          toString (min pref_h (py_max (available_heights formats) : Int)) ++
          "]+bestaudio/best"
    | none => ext_fallback_selector (best_ext (available_exts formats))

end Gpt5

theorem isSubList_append_left (a s pat : List Char)
    (h : isSubList pat s = true) : isSubList pat (a ++ s) = true := by
  induction a with
  | nil => simpa using h
  | cons c t ih =>
    simp only [List.cons_append, isSubList, Bool.or_eq_true]
    right
    exact ih

theorem isSubList_append_right (s b pat : List Char)
    (h : isSubList pat s = true) : isSubList pat (s ++ b) = true := by
  induction s with
  | nil =>
    simp only [isSubList, List.isEmpty_iff] at h
    subst h
    cases b with
    | nil => rfl
    | cons c t =>
      simp [isSubList, List.isPrefixOf_iff_prefix]
  | cons c t ih =>
    simp only [isSubList, Bool.or_eq_true] at h
    simp only [List.cons_append, isSubList, Bool.or_eq_true]
    rcases h with h | h
    · left
      rw [List.isPrefixOf_iff_prefix] at h ⊢
      exact h.trans (List.prefix_append _ _)
    · right
      exact ih h

theorem strContains_self (p : String) : strContains p p = true := by
  unfold strContains
  cases hd : p.data with
  | nil => rfl
  | cons c t =>
    simp only [isSubList, Bool.or_eq_true]
    left
    exact List.isPrefixOf_iff_prefix.mpr (List.prefix_refl _)

theorem strContains_append_left (s t pat : String)
    (h : strContains s pat = true) : strContains (s ++ t) pat = true := by
  simp only [strContains, String.data_append]
  exact isSubList_append_right _ _ _ h

theorem strContains_append_right (s t pat : String)
    (h : strContains t pat = true) : strContains (s ++ t) pat = true := by
  simp only [strContains, String.data_append]
  exact isSubList_append_left _ _ _ h

theorem strContains_concat (x pl v : String) :
    strContains ((x ++ pl) ++ v) (pl ++ v) = true := by
  rw [String.append_assoc]
  exact strContains_append_right _ _ _ (strContains_self _)

theorem firstExtIn_mem (pr exts : List String) (e : String)
    (h : firstExtIn pr exts = some e) : e ∈ pr := by
  induction pr with
  | nil => exact absurd h (by simp [firstExtIn])
  | cons p rest ih =>
    rw [firstExtIn] at h
    by_cases hp : p ∈ exts
    · rw [if_pos hp] at h
      rw [Option.some_inj] at h
      subst h
      exact List.mem_cons_self _ _
    · rw [if_neg hp] at h
      exact List.mem_cons_of_mem _ (ih h)

theorem v1_ext_fallback_no_height (b : Option String)
    (hb : ∀ e, b = some e → e ∈ ext_priority) :
    strContains (GetIbmYtDlt.ext_fallback_selector b) "height<=" = false := by
  cases b with
  | none => decide
  | some e =>
    have he := hb e rfl
    simp only [ext_priority, List.mem_cons, List.not_mem_nil, or_false] at he
    rcases he with rfl | rfl | rfl | rfl <;> decide

theorem gpt5_ext_fallback_no_height (b : Option String)
    (hb : ∀ e, b = some e → e ∈ ext_priority) :
    strContains (Gpt5.ext_fallback_selector b) "height<=" = false := by
  cases b with
  | none => decide
  | some e =>
    have he := hb e rfl
    simp only [ext_priority, List.mem_cons, List.not_mem_nil, or_false] at he
    rcases he with rfl | rfl | rfl | rfl <;> decide

theorem v1_ext_fallback_contains_ext (b : Option String) (e : String)
    (h : b = some e) :
    strContains (GetIbmYtDlt.ext_fallback_selector b) ("ext=" ++ e) = true := by
  subst h
  show strContains ("best[ext=" ++ e ++ "]/best") ("ext=" ++ e) = true
  apply strContains_append_left
  rw [(by decide : ("best[ext=" : String) = "best[" ++ "ext=")]
  exact strContains_concat "best[" "ext=" e

theorem gpt5_ext_fallback_contains_ext (b : Option String) (e : String)
    (h : b = some e) :
    strContains (Gpt5.ext_fallback_selector b) ("ext=" ++ e) = true := by
  subst h
  show strContains ("bestvideo[ext=" ++ e ++ "]+bestaudio/best") ("ext=" ++ e) = true
  apply strContains_append_left
  rw [(by decide : ("bestvideo[ext=" : String) = "bestvideo[" ++ "ext=")]
  exact strContains_concat "bestvideo[" "ext=" e

/-- C2: the probe's selector choice ranks by the hardcoded extension
priority — `best_ext` is the first of mp4, webm, mkv, flv present among
the available extensions — and by height: with a numeric preferred
quality the emitted constraint is `height<=` the minimum of that number
and the maximum available height, and with preferred quality `best` no
height constraint is emitted; this holds for both versions that carry
the probe. -/
theorem optimal_format_selector_ranking
    (exts : List String) (formats : List FormatInfo) (q e : String) (n : Int) :
    ("mp4" ∈ exts → best_ext exts = some "mp4")
    ∧ ("mp4" ∉ exts → "webm" ∈ exts → best_ext exts = some "webm")
    ∧ ("mp4" ∉ exts → "webm" ∉ exts → "mkv" ∈ exts → best_ext exts = some "mkv")
    ∧ ("mp4" ∉ exts → "webm" ∉ exts → "mkv" ∉ exts → "flv" ∈ exts →
        best_ext exts = some "flv")
    ∧ ("mp4" ∉ exts → "webm" ∉ exts → "mkv" ∉ exts → "flv" ∉ exts →
        best_ext exts = none)
    ∧ (q = "best" →
        strContains (GetIbmYtDlt.get_optimal_format_selector formats q)
          "height<=" = false)
    ∧ (q = "best" →
        strContains (Gpt5.get_optimal_format_selector formats q)
          "height<=" = false)
    ∧ (parse_preferred q = some n → available_heights formats ≠ [] →
        strContains (GetIbmYtDlt.get_optimal_format_selector formats q)
          ("height<=" ++ toString (min n (py_max (available_heights formats) : Int)))
          = true)
    ∧ (parse_preferred q = some n → available_heights formats ≠ [] →
        strContains (Gpt5.get_optimal_format_selector formats q)
          ("height<=" ++ toString (min n (py_max (available_heights formats) : Int)))
          = true)
    ∧ (best_ext (available_exts formats) = some e →
        strContains (GetIbmYtDlt.get_optimal_format_selector formats q)
          ("ext=" ++ e) = true)
    ∧ (best_ext (available_exts formats) = some e →
        strContains (Gpt5.get_optimal_format_selector formats q)
          ("ext=" ++ e) = true) := by
  have hmem : ∀ b, best_ext (available_exts formats) = b →
      ∀ e', b = some e' → e' ∈ ext_priority := by
    intro b hb e' he'
    subst hb
    exact firstExtIn_mem _ _ _ he'
  refine ⟨?_, ?_, ?_, ?_, ?_, ?_, ?_, ?_, ?_, ?_, ?_⟩
  · intro h1
    simp [best_ext, ext_priority, firstExtIn, h1]
  · intro h1 h2
    simp [best_ext, ext_priority, firstExtIn, h1, h2]
  · intro h1 h2 h3
    simp [best_ext, ext_priority, firstExtIn, h1, h2, h3]
  · intro h1 h2 h3 h4
    simp [best_ext, ext_priority, firstExtIn, h1, h2, h3, h4]
  · intro h1 h2 h3 h4
    simp [best_ext, ext_priority, firstExtIn, h1, h2, h3, h4]
  · intro hq
    subst hq
    unfold GetIbmYtDlt.get_optimal_format_selector
    by_cases hf : formats.isEmpty
    · rw [if_pos hf]
      decide
    · rw [if_neg hf]
      by_cases hh : (available_heights formats).isEmpty
      · rw [if_pos hh]
        exact v1_ext_fallback_no_height _ (hmem _ rfl)
      · rw [if_neg hh, if_pos rfl]
        exact v1_ext_fallback_no_height _ (hmem _ rfl)
  · intro hq
    subst hq
    unfold Gpt5.get_optimal_format_selector
    by_cases hf : formats.isEmpty
    · rw [if_pos hf]
      decide
    · rw [if_neg hf]
      by_cases hh : (available_heights formats).isEmpty
      · rw [if_pos hh]
        exact gpt5_ext_fallback_no_height _ (hmem _ rfl)
      · rw [if_neg hh, if_pos rfl]
        exact gpt5_ext_fallback_no_height _ (hmem _ rfl)
  · intro hn hne
    have hq : q ≠ "best" := by
      intro h
      subst h
      rw [(by decide : parse_preferred "best" = (none : Option Int))] at hn
      exact Option.noConfusion hn
    unfold GetIbmYtDlt.get_optimal_format_selector
    have hf : formats.isEmpty = false := by
      cases formats with
      | nil => exact absurd rfl hne
      | cons a t => rfl
    have hh : (available_heights formats).isEmpty = false := by
      rw [List.isEmpty_eq_false]
      exact hne
    rw [if_neg (by simp [hf]), if_neg (by simp [hh]), if_neg hq, hn]
    cases hbe : best_ext (available_exts formats) with
    | some e' =>
      simp only []
      apply strContains_append_left
      apply strContains_append_left
      apply strContains_append_left
      apply strContains_append_left
      apply strContains_append_left
      rw [(by decide : ("best[height<=" : String) = "best[" ++ "height<=")]
      exact strContains_concat "best[" "height<=" _
    | none =>
      simp only []
      apply strContains_append_left
      rw [(by decide : ("best[height<=" : String) = "best[" ++ "height<=")]
      exact strContains_concat "best[" "height<=" _
  · intro hn hne
    have hq : q ≠ "best" := by
      intro h
      subst h
      rw [(by decide : parse_preferred "best" = (none : Option Int))] at hn
      exact Option.noConfusion hn
    unfold Gpt5.get_optimal_format_selector
    have hf : formats.isEmpty = false := by
      cases formats with
      | nil => exact absurd rfl hne
      | cons a t => rfl
    have hh : (available_heights formats).isEmpty = false := by
      rw [List.isEmpty_eq_false]
      exact hne
    rw [if_neg (by simp [hf]), if_neg (by simp [hh]), if_neg hq, hn]
    cases hbe : best_ext (available_exts formats) with
    | some e' =>
      simp only []
      apply strContains_append_left
      apply strContains_append_left
      apply strContains_append_left
      rw [(by decide : ("bestvideo[height<=" : String) = "bestvideo[" ++ "height<=")]
      exact strContains_concat "bestvideo[" "height<=" _
    | none =>
      simp only []
      apply strContains_append_left
      rw [(by decide : ("bestvideo[height<=" : String) = "bestvideo[" ++ "height<=")]
      exact strContains_concat "bestvideo[" "height<=" _
  · intro hbe
    unfold GetIbmYtDlt.get_optimal_format_selector
    by_cases hf : formats.isEmpty
    · rw [List.isEmpty_iff] at hf
      subst hf
      simp [available_exts, best_ext, ext_priority, firstExtIn] at hbe
    · rw [if_neg hf]
      by_cases hh : (available_heights formats).isEmpty
      · rw [if_pos hh]
        exact v1_ext_fallback_contains_ext _ _ hbe
      · rw [if_neg hh]
        by_cases hq : q = "best"
        · rw [if_pos hq]
          exact v1_ext_fallback_contains_ext _ _ hbe
        · rw [if_neg hq]
          cases hp : parse_preferred q with
          | none =>
            simp only []
            exact v1_ext_fallback_contains_ext _ _ hbe
          | some m =>
            simp only [hbe]
            apply strContains_append_left
            rw [(by decide : ("]/best[ext=" : String) = "]/best[" ++ "ext="),
              ← String.append_assoc, String.append_assoc]
            exact strContains_append_right _ _ _ (strContains_self _)
  · intro hbe
    unfold Gpt5.get_optimal_format_selector
    by_cases hf : formats.isEmpty
    · rw [List.isEmpty_iff] at hf
      subst hf
      simp [available_exts, best_ext, ext_priority, firstExtIn] at hbe
    · rw [if_neg hf]
      by_cases hh : (available_heights formats).isEmpty
      · rw [if_pos hh]
        exact gpt5_ext_fallback_contains_ext _ _ hbe
      · rw [if_neg hh]
        by_cases hq : q = "best"
        · rw [if_pos hq]
          exact gpt5_ext_fallback_contains_ext _ _ hbe
        · rw [if_neg hq]
          cases hp : parse_preferred q with
          | none =>
            simp only []
            exact gpt5_ext_fallback_contains_ext _ _ hbe
          | some m =>
            simp only [hbe]
            apply strContains_append_left
            rw [(by decide : ("][ext=" : String) = "][" ++ "ext="),
              ← String.append_assoc, String.append_assoc]
            exact strContains_append_right _ _ _ (strContains_self _)

/-- Witness for `optimal_format_selector_ranking`: concrete instantiations
of the extension-priority, capped-height and no-height-constraint
conjuncts. -/
theorem optimal_format_selector_ranking_witness :
    best_ext ["flv", "webm"] = some "webm"
    ∧ strContains
        (GetIbmYtDlt.get_optimal_format_selector
          [⟨some "webm", some 480⟩] "720p")
        ("height<=" ++ toString (min 720
          (py_max (available_heights [⟨some "webm", some 480⟩]) : Int))) = true
    ∧ strContains
        (Gpt5.get_optimal_format_selector [⟨some "webm", some 480⟩] "best")
        "height<=" = false :=
  ⟨(optimal_format_selector_ranking ["flv", "webm"] [] "best" "" 0).2.1
      (by decide) (by decide),
   (optimal_format_selector_ranking [] [⟨some "webm", some 480⟩] "720p" "" 720).2.2.2.2.2.2.2.1
      (by decide) (by decide),
   (optimal_format_selector_ranking [] [⟨some "webm", some 480⟩] "best" "" 0).2.2.2.2.2.2.1
      rfl⟩

/-! ## `_format_bytes` (C9)

`get_ibm_yt-dlt.py` lines 293-302 and the gpt5 version lines 348-355
define the identical helper.  The numeric value is modelled as an exact
rational (Python uses binary doubles; the repeated `/= 1024.0` and the
`< 1024.0` guards are exact at the inputs of interest).  `f"{x:.1f}"` is
modelled by `round1`, rounding half-up to one decimal (Python rounds the
double half-to-even, which differs only at exact ties). -/

/-- One-decimal rounding: the numeric part of `f"{x:.1f}"`. -/
def round1 (q : ℚ) : ℚ :=
  (⌊q * 10 + 1/2⌋ : ℚ) / 10

/-- The unit-selection loop of `_format_bytes`: divide by 1024 until the
value drops below 1024 or the units B, KB, MB, GB are exhausted, in which
case TB is used; returns the value as scaled when its unit was chosen,
with that unit. -/
def format_bytes_core (b : ℚ) : ℚ × String :=
  if b < 1024 then (b, "B")
  else if b / 1024 < 1024 then (b / 1024, "KB")
  else if b / 1024 / 1024 < 1024 then (b / 1024 / 1024, "MB")
  else if b / 1024 / 1024 / 1024 < 1024 then (b / 1024 / 1024 / 1024, "GB")
  else (b / 1024 / 1024 / 1024 / 1024, "TB")

/-- `_format_bytes(bytes_val)` as (rounded numeric part, unit); `none`
models the `bytes_val is None` branch that returns `"N/A"`. -/
def format_bytes (v : Option ℚ) : Option (ℚ × String) :=
  v.map fun b => (round1 (format_bytes_core b).1, (format_bytes_core b).2)

/-- Decimal rendering of the rounded one-decimal value (for the
non-negative values the claim ranges over). -/
def render1 (q : ℚ) : String :=
  toString ⌊q⌋ ++ "." ++ toString (⌊q * 10⌋ % 10)

/-- `_format_bytes` down to its final string. -/
def _format_bytes (v : Option ℚ) : String :=
  match format_bytes v with
  | none => "N/A"
  | some (q, u) => render1 q ++ u

theorem round1_le_of_lt (v : ℚ) (h : v < 1024) : round1 v ≤ 1024 := by
  unfold round1
  rw [div_le_iff₀ (by norm_num : (0:ℚ) < 10)]
  have h1 : (⌊v * 10 + 1/2⌋ : ℚ) ≤ v * 10 + 1/2 := Int.floor_le _
  have h4 : ⌊v * 10 + 1/2⌋ < 10241 := by
    have h3 : (⌊v * 10 + 1/2⌋ : ℚ) < 10241 := by linarith
    exact_mod_cast h3
  have h5 : (⌊v * 10 + 1/2⌋ : ℚ) ≤ 10240 := by
    exact_mod_cast Int.lt_add_one_iff.mp h4
  linarith

/-- C9 counterexample: at 1023.99 bytes the guard `1023.99 < 1024` keeps
unit `B`, but rounding to one decimal formats the numeric part as exactly
1024.0 — the formatted numeric part is not strictly less than 1024 even
though the unit is not TB. -/
theorem format_bytes_rounded_part_counterexample :
    format_bytes (some (102399/100)) = some (1024, "B")
    ∧ ((1024 : ℚ) < 1024 → False) := by
  constructor
  · have hcore : format_bytes_core (102399/100) = (102399/100, "B") := by
      unfold format_bytes_core
      rw [if_pos (by norm_num : (102399/100 : ℚ) < 1024)]
    have hr : round1 (102399/100) = 1024 := by
      unfold round1
      norm_num [Int.floor_eq_iff]
    simp [format_bytes, hcore, hr]
  · intro h
    exact absurd h (by norm_num)

/-- C9 amended: `_format_bytes` is total — `None` yields `"N/A"`, and
every non-negative value is rendered to one decimal with exactly one unit
among B, KB, MB, GB, TB; the value as scaled for its unit is non-negative
and strictly below 1024 unless the unit is TB, while the rounded
one-decimal numeric part can reach 1024 exactly (it is at most 1024 for
the non-TB units). -/
theorem format_bytes_unit_bounds (b : ℚ) (hb : 0 ≤ b) :
    _format_bytes none = "N/A"
    ∧ (format_bytes_core b).2 ∈ ["B", "KB", "MB", "GB", "TB"]
    ∧ 0 ≤ (format_bytes_core b).1
    ∧ ((format_bytes_core b).2 ≠ "TB" → (format_bytes_core b).1 < 1024)
    ∧ ((format_bytes_core b).2 ≠ "TB" → round1 (format_bytes_core b).1 ≤ 1024)
    ∧ format_bytes (some b)
        = some (round1 (format_bytes_core b).1, (format_bytes_core b).2) := by
  have hq : (0:ℚ) ≤ 1024 := by norm_num
  by_cases h1 : b < 1024
  · have hcore : format_bytes_core b = (b, "B") := by
      unfold format_bytes_core
      rw [if_pos h1]
    rw [hcore]
    exact ⟨rfl, by simp, hb, fun _ => h1, fun _ => round1_le_of_lt b h1,
      by simp [format_bytes, hcore]⟩
  · by_cases h2 : b / 1024 < 1024
    · have hcore : format_bytes_core b = (b / 1024, "KB") := by
        unfold format_bytes_core
        rw [if_neg h1, if_pos h2]
      rw [hcore]
      exact ⟨rfl, by simp, div_nonneg hb hq, fun _ => h2,
        fun _ => round1_le_of_lt _ h2, by simp [format_bytes, hcore]⟩
    · by_cases h3 : b / 1024 / 1024 < 1024
      · have hcore : format_bytes_core b = (b / 1024 / 1024, "MB") := by
          unfold format_bytes_core
          rw [if_neg h1, if_neg h2, if_pos h3]
        rw [hcore]
        exact ⟨rfl, by simp, div_nonneg (div_nonneg hb hq) hq, fun _ => h3,
          fun _ => round1_le_of_lt _ h3, by simp [format_bytes, hcore]⟩
      · by_cases h4 : b / 1024 / 1024 / 1024 < 1024
        · have hcore : format_bytes_core b = (b / 1024 / 1024 / 1024, "GB") := by
            unfold format_bytes_core
            rw [if_neg h1, if_neg h2, if_neg h3, if_pos h4]
          rw [hcore]
          exact ⟨rfl, by simp, div_nonneg (div_nonneg (div_nonneg hb hq) hq) hq,
            fun _ => h4, fun _ => round1_le_of_lt _ h4, by simp [format_bytes, hcore]⟩
        · have hcore : format_bytes_core b
              = (b / 1024 / 1024 / 1024 / 1024, "TB") := by
            unfold format_bytes_core
            rw [if_neg h1, if_neg h2, if_neg h3, if_neg h4]
          rw [hcore]
          refine ⟨rfl, by simp, ?_, ?_, ?_, by simp [format_bytes, hcore]⟩
          · exact div_nonneg (div_nonneg (div_nonneg (div_nonneg hb hq) hq) hq) hq
          · intro h
            exact absurd rfl h
          · intro h
            exact absurd rfl h

/-- Witness for `format_bytes_unit_bounds` at 2048 bytes (2.0KB). -/
theorem format_bytes_unit_bounds_witness :
    _format_bytes none = "N/A"
    ∧ (format_bytes_core 2048).2 ∈ ["B", "KB", "MB", "GB", "TB"]
    ∧ 0 ≤ (format_bytes_core 2048).1
    ∧ ((format_bytes_core 2048).2 ≠ "TB" → (format_bytes_core 2048).1 < 1024)
    ∧ ((format_bytes_core 2048).2 ≠ "TB" → round1 (format_bytes_core 2048).1 ≤ 1024)
    ∧ format_bytes (some 2048)
        = some (round1 (format_bytes_core 2048).1, (format_bytes_core 2048).2) :=
  format_bytes_unit_bounds 2048 (by norm_num)

/-! ## `redact` (C10)

The gpt5 version's `redact` (lines 28-41): a shallow pass over a dict —
modelled as its insertion-ordered key/value pairs — replacing the value
of every key that equals or ends with one of the four sensitive names
with the literal `***REDACTED***`.  `str.endswith` is modelled as a
suffix test on the character lists. -/

namespace Gpt5

/-- `REDACT_KEYS` (line 28); the Python `set` is iterated only through
an order-insensitive `any`, so a list models it. -/
def REDACT_KEYS : List String :=
  ["Cookie", "cookie", "Authorization", "authorization"]

/-- Python's `k.endswith(x)`. -/
def ends_with (k x : String) : Bool :=
  x.data.isSuffixOf k.data

/-- `any(k.endswith(x) or k == x for x in REDACT_KEYS)` (line 37). -/
def is_sensitive (k : String) : Bool :=
  REDACT_KEYS.any fun x => ends_with k x || k == x

/-- `redact(d)` (lines 31-41) on the dict branch: every entry is kept,
in order; sensitive keys get the value `***REDACTED***`, the rest keep
their value. -/
def redact (d : List (String × String)) : List (String × String) :=
  d.map fun kv => if is_sensitive kv.1 then (kv.1, "***REDACTED***") else kv

end Gpt5

/-- C10: `redact` is insensitive to the secret values — two dicts with the
same keys in the same order that agree on every non-sensitive value
redact to equal outputs — its output keeps exactly the input's keys in
order, and entry-wise each sensitive key maps to `***REDACTED***` while
every other entry is kept unchanged. -/
theorem redact_noninterference (d₁ d₂ : List (String × String))
    (h : List.Forall₂
      (fun p q => p.1 = q.1 ∧ (Gpt5.is_sensitive p.1 = false → p.2 = q.2)) d₁ d₂) :
    Gpt5.redact d₁ = Gpt5.redact d₂
    ∧ (Gpt5.redact d₁).map Prod.fst = d₁.map Prod.fst
    ∧ (∀ i : Nat, (Gpt5.redact d₁)[i]?
        = (d₁[i]?).map fun kv =>
            if Gpt5.is_sensitive kv.1 then (kv.1, "***REDACTED***") else kv) := by
  refine ⟨?_, ?_, ?_⟩
  · induction h with
    | nil => rfl
    | cons h1 h2 ih =>
      rename_i p q l₁ l₂
      obtain ⟨hk, hv⟩ := h1
      simp only [Gpt5.redact, List.map_cons] at ih ⊢
      congr 1
      · cases hs : Gpt5.is_sensitive p.1 with
        | true =>
          rw [if_pos rfl, if_pos (hk ▸ hs), hk]
        | false =>
          rw [if_neg (by simp), if_neg (by simp [hk ▸ hs])]
          exact Prod.ext hk (hv hs)
  · rw [Gpt5.redact, List.map_map]
    apply List.map_congr_left
    intro kv _
    by_cases hs : Gpt5.is_sensitive kv.1 <;> simp [hs]
  · intro i
    simp [Gpt5.redact, List.getElem?_map]

/-- Witness for `redact_noninterference`: two header dicts differing only
in the Cookie value redact identically, keys survive, and entry 0 is
redacted. -/
theorem redact_noninterference_witness :
    Gpt5.redact [("Cookie", "secret-a"), ("url", "u")]
      = Gpt5.redact [("Cookie", "secret-b"), ("url", "u")]
    ∧ (Gpt5.redact [("Cookie", "secret-a"), ("url", "u")]).map Prod.fst
      = [("Cookie", "secret-a"), ("url", "u")].map Prod.fst
    ∧ (Gpt5.redact [("Cookie", "secret-a"), ("url", "u")])[0]?
      = (([("Cookie", "secret-a"), ("url", "u")] : List (String × String))[0]?).map
          fun kv => if Gpt5.is_sensitive kv.1 then (kv.1, "***REDACTED***") else kv := by
  have h := redact_noninterference
    [("Cookie", "secret-a"), ("url", "u")]
    [("Cookie", "secret-b"), ("url", "u")]
    (List.Forall₂.cons
      ⟨rfl, fun hs => absurd hs (by decide)⟩
      (List.Forall₂.cons ⟨rfl, fun _ => rfl⟩ List.Forall₂.nil))
  exact ⟨h.1, h.2.1, h.2.2 0⟩
